import Mathlib

/-!
Shallow embedding of the hot-key mitigation cascade from the
`rate-limit` service: the go-cache backed `LocalCache`, the
`HotKeyDetector` (access counter + hot-flag registry), the token-bucket
`RateLimiter` built on `x/time/rate`, and the HTTP handlers of the API
`Server` (`handleGetKey`, `handleSetKey`, `handleKeyStats`,
`handleHotKeys`).

Time is modelled as an explicit `Nat` of nanoseconds, threaded into
every operation where the source calls `time.Now()`.  Token counts,
which the source keeps as `float64`, are modelled as exact rationals.
-/

set_option autoImplicit false

namespace RateLimitCascade

/-- One item of a go-cache store: a value plus its absolute expiration
timestamp (`now + duration` at the time of `Set`). -/
structure CacheEntry (α : Type) where
  value : α
  expiresAt : Nat
  deriving DecidableEq, Repr

/-- Model of `cache.LocalCache`: wrapper around a `patrickmn/go-cache` map from
string keys to values with per-entry TTL.  Modelled as an association
list where the most recent `Set` for a key shadows older entries. -/
structure LocalCache (α : Type) where
  items : List (String × CacheEntry α)
  deriving DecidableEq, Repr

namespace LocalCache

/-- Model of `LocalCache.Get`: an entry is returned while it exists and is not
expired; go-cache treats an item as expired once `now > Expiration`,
so a live entry satisfies `now ≤ expiresAt`. -/
def Get {α : Type} (lc : LocalCache α) (key : String) (now : Nat) : Option α :=
  match lc.items.find? (fun e => e.1 == key) with
  | some e => if now ≤ e.2.expiresAt then some e.2.value else none
  | none => none

/-- Model of `LocalCache.Set`: store `value` under `key` with expiration
`now + duration`, replacing any previous entry for `key`. -/
def Set {α : Type} (lc : LocalCache α) (key : String) (value : α)
    (duration : Nat) (now : Nat) : LocalCache α :=
  ⟨(key, ⟨value, now + duration⟩) :: lc.items⟩

/-- Model of `LocalCache.Delete`: remove every entry for `key`. -/
def Delete {α : Type} (lc : LocalCache α) (key : String) : LocalCache α :=
  ⟨lc.items.filter (fun e => e.1 != key)⟩

@[simp] theorem Get_Set_self {α : Type} (lc : LocalCache α) (key : String)
    (v : α) (d now now' : Nat) :
    (lc.Set key v d now).Get key now' =
      (if now' ≤ now + d then some v else none) := by
  simp [Get, Set, List.find?]

@[simp] theorem Get_Set_other {α : Type} (lc : LocalCache α) {key key' : String}
    (v : α) (d now now' : Nat) (h : key' ≠ key) :
    (lc.Set key v d now).Get key' now' = lc.Get key' now' := by
  have hb : (key == key') = false := by
    simp [beq_eq_false_iff_ne]
    exact fun he => h he.symm
  simp [Get, Set, List.find?, hb]

/-- If a key has no entry at all, `Get` misses at every time. -/
theorem Get_eq_none_of_find_none {α : Type} (lc : LocalCache α) (key : String)
    (h : lc.items.find? (fun e => e.1 == key) = none) (now : Nat) :
    lc.Get key now = none := by
  simp [Get, h]

end LocalCache

/-- Model of `detector.HotKeyConfig`. Defaults: threshold 100, window 10 s,
hot-key expiration 5 min. -/
structure HotKeyConfig where
  Threshold : Nat
  Window : Nat
  HotKeyExpiration : Nat
  deriving DecidableEq, Repr

/-- Model of `detector.DefaultHotKeyConfig` (durations in nanoseconds). -/
def DefaultHotKeyConfig : HotKeyConfig :=
  ⟨100, 10000000000, 300000000000⟩

/-- Model of `detector.HotKeyDetector`: the access-counter cache (named
`localCache` in the source) plus the hot-key flag cache.  The source
stores each count as `time.Duration(count).String()` and reads it back
with `time.ParseDuration`, an exact round trip on the counts this code
ever writes; the model therefore stores the counts themselves. -/
structure HotKeyDetector where
  config : HotKeyConfig
  localCache : LocalCache Nat
  hotKeys : LocalCache String
  deriving DecidableEq, Repr

namespace HotKeyDetector

/-- Model of `HotKeyDetector.RecordAccess`: if a live hot flag exists return
true at once; otherwise increment the windowed count (1 when absent or
expired), store it with a fresh window deadline, and on reaching the
threshold mark the key hot and return true. -/
def RecordAccess (d : HotKeyDetector) (key : String) (now : Nat) :
    Bool × HotKeyDetector :=
  match d.hotKeys.Get key now with
  | some _ => (true, d)
  | none =>
    let count : Nat :=
      match d.localCache.Get key now with
      | some c => c + 1
      | none => 1
    let counter := d.localCache.Set key count d.config.Window now
    if d.config.Threshold ≤ count then
      (true, { d with
                localCache := counter,
                hotKeys := d.hotKeys.Set key "true" d.config.HotKeyExpiration now })
    else
      (false, { d with localCache := counter })

/-- Model of `HotKeyDetector.IsHotKey`: true iff a non-expired hot flag exists. -/
def IsHotKey (d : HotKeyDetector) (key : String) (now : Nat) : Bool :=
  (d.hotKeys.Get key now).isSome

/-- Model of `HotKeyDetector.GetAccessCount`: the live windowed count, else 0. -/
def GetAccessCount (d : HotKeyDetector) (key : String) (now : Nat) : Nat :=
  match d.localCache.Get key now with
  | some c => c
  | none => 0

/-- Model of `HotKeyDetector.GetHotKeys`: the source is a stub that always
returns the empty list. -/
def GetHotKeys (_d : HotKeyDetector) : List String :=
  []

/-- Model of `HotKeyDetector.ClearHotKey`: drop the hot flag for `key`. -/
def ClearHotKey (d : HotKeyDetector) (key : String) : HotKeyDetector :=
  { d with hotKeys := d.hotKeys.Delete key }

end HotKeyDetector

/-- Model of `limiter.RateLimiterConfig`.  The per-second rate is a `float64` in
the source; modelled as an exact rational. -/
structure RateLimiterConfig where
  RatePerSecond : ℚ
  BurstSize : Nat
  deriving DecidableEq, Repr

/-- Model of `limiter.DefaultRateLimiterConfig`: 10 req/s, burst 20. -/
def DefaultRateLimiterConfig : RateLimiterConfig :=
  ⟨10, 20⟩

/-- Model of `rate.Limiter` from `golang.org/x/time/rate`: a token bucket with
`float64` tokens (here exact rationals), a burst bound and the time of
the last committed reservation. -/
structure Limiter where
  limit : ℚ
  burst : Nat
  tokens : ℚ
  last : Nat
  deriving DecidableEq, Repr

namespace Limiter

/-- Model of `rate.NewLimiter(r, b)`: starts with a full bucket (`tokens =
float64(b)`) and the zero time as `last`. -/
def New (r : ℚ) (b : Nat) : Limiter :=
  ⟨r, b, (b : ℚ), 0⟩

/-- Model of `rate.Limiter.Allow` (= `AllowN(now, 1)` with no future reserve):
advance the bucket by `elapsed * limit` tokens capped at `burst`, then
admit iff one token can be debited; a denied call commits nothing.
`elapsed` is clamped at zero when `now` precedes `last`, as in the
source's `advance`. -/
def Allow (lim : Limiter) (now : Nat) : Bool × Limiter :=
  let elapsed : Nat := now - lim.last
  let tokens : ℚ :=
    min (lim.burst : ℚ) (lim.tokens + (elapsed : ℚ) * lim.limit / 1000000000)
  let tokens' := tokens - 1
  if 1 ≤ lim.burst ∧ 0 ≤ tokens' then
    (true, { lim with tokens := tokens', last := now })
  else
    (false, lim)

end Limiter

/-- Model of `limiter.RateLimiter`: lazily created per-key token buckets. -/
structure RateLimiter where
  config : RateLimiterConfig
  limiters : List (String × Limiter)
  deriving DecidableEq, Repr

namespace RateLimiter

/-- Model of `RateLimiter.getLimiter`: fetch the bucket for `key`, creating one
from the process-wide config when absent. -/
def getLimiter (rl : RateLimiter) (key : String) : Limiter × RateLimiter :=
  match rl.limiters.find? (fun e => e.1 == key) with
  | some e => (e.2, rl)
  | none =>
    let lim := Limiter.New rl.config.RatePerSecond rl.config.BurstSize
    (lim, { rl with limiters := (key, lim) :: rl.limiters })

/-- Model of `RateLimiter.Allow(key)`: delegate to the key's bucket; the updated
bucket shadows the old entry. -/
def Allow (rl : RateLimiter) (key : String) (now : Nat) : Bool × RateLimiter :=
  let p := rl.getLimiter key
  let q := p.1.Allow now
  (q.1, { p.2 with limiters := (key, q.2) :: p.2.limiters })

/-- Model of `RateLimiter.SetRateForKey`: replace the key's bucket with a fresh
one built from an explicit rate and burst. -/
def SetRateForKey (rl : RateLimiter) (key : String) (ratePerSecond : ℚ)
    (burstSize : Nat) : RateLimiter :=
  { rl with limiters := (key, Limiter.New ratePerSecond burstSize) :: rl.limiters }

end RateLimiter

/-- Outcome of the one backing-store read a `handleGetKey` request may
perform: the key's presence in Redis (`success (some v)` present with
value `v`, `success none` absent = `redis.Nil`), or a store failure. -/
inductive GetOutcome where
  | success (val : Option String)
  | failure
  deriving DecidableEq, Repr

/-- Model of `storage.RedisClient.Get`: non-`redis.Nil` errors are returned with
an empty value; an absent key is collapsed to the empty string with no
error.  Returns `(value, hasError)`. -/
def RedisClient.Get : GetOutcome → String × Bool
  | .failure => ("", true)
  | .success none => ("", false)
  | .success (some v) => (v, false)

/-- An operation touching the server's fallback cache (`s.localCache`),
recorded so cache-avoidance properties can be stated: a `Get` lookup or
a `Set` population of the given key. -/
inductive FbEvent where
  | lookup (key : String)
  | populate (key : String)
  deriving DecidableEq, Repr

/-- Source tag of a successful read, mirroring the `"source"` field of
the JSON response. -/
inductive Source where
  | local_cache
  | redis
  deriving DecidableEq, Repr

/-- The four observable outcomes of `handleGetKey`, mirroring the HTTP
responses 200 (with source), 429, 500 and 404. -/
inductive ReadResult where
  | value (v : String) (src : Source)
  | throttled
  | storeError
  | notFound
  deriving DecidableEq, Repr

/-- Model of `api.Server`: the fallback cache, the detector and the limiter (the
Redis handle is the external collaborator, passed per request; router
and port are transport concerns). -/
structure Server where
  localCache : LocalCache String
  hotKeyDet : HotKeyDetector
  rateLimiter : RateLimiter
  deriving DecidableEq, Repr

/-- Result of one `handleGetKey` request: the response, the server
state afterwards, whether the backing store was invoked, and the
fallback-cache operations performed. -/
structure ReadOutput where
  result : ReadResult
  state : Server
  storeInvoked : Bool
  fallbackEvents : List FbEvent
  deriving DecidableEq, Repr

namespace Server

/-- Model of `Server.handleGetKey`: record the access; for a hot key try the
fallback cache and then the limiter; otherwise (or on an admitted
miss) read the backing store, report 500 on error and 404 on an empty
value, and populate the fallback cache only when the key is hot. -/
def handleGetKey (s : Server) (store : GetOutcome) (key : String) (now : Nat) :
    ReadOutput :=
  let r := s.hotKeyDet.RecordAccess key now
  let isHotKey := r.1
  let s1 : Server := { s with hotKeyDet := r.2 }
  let fetch : Server → List FbEvent → ReadOutput := fun s2 events =>
    let g := RedisClient.Get store
    if g.2 then ⟨.storeError, s2, true, events⟩
    else if g.1 = "" then ⟨.notFound, s2, true, events⟩
    else if isHotKey then
      ⟨.value g.1 .redis,
        { s2 with localCache := s2.localCache.Set key g.1 300000000000 now },
        true, events ++ [.populate key]⟩
    else ⟨.value g.1 .redis, s2, true, events⟩
  if isHotKey then
    match s1.localCache.Get key now with
    | some v => ⟨.value v .local_cache, s1, false, [.lookup key]⟩
    | none =>
      let a := s1.rateLimiter.Allow key now
      let s2 : Server := { s1 with rateLimiter := a.2 }
      if a.1 then fetch s2 [.lookup key]
      else ⟨.throttled, s2, false, [.lookup key]⟩
  else fetch s1 []

/-- The three observable outcomes of `handleSetKey`: 400 for an empty
value, 500 on a store failure, 200 otherwise. -/
inductive WriteResult where
  | badRequest
  | storeError
  | success
  deriving DecidableEq, Repr

/-- Result of one `handleSetKey` request. -/
structure WriteOutput where
  result : WriteResult
  state : Server
  storeInvoked : Bool
  fallbackEvents : List FbEvent
  deriving DecidableEq, Repr

/-- Model of `Server.handleSetKey`: reject an empty value before touching
anything; write to the backing store (whose failure is the `setFails`
input); refresh the fallback cache only when the key is currently hot. -/
def handleSetKey (s : Server) (setFails : Bool) (key value : String)
    (now : Nat) : WriteOutput :=
  if value = "" then ⟨.badRequest, s, false, []⟩
  else if setFails then ⟨.storeError, s, true, []⟩
  else if s.hotKeyDet.IsHotKey key now then
    ⟨.success,
      { s with localCache := s.localCache.Set key value 300000000000 now },
      true, [.populate key]⟩
  else ⟨.success, s, true, []⟩

/-- Result of one `handleKeyStats` request, mirroring the JSON fields
`access_count`, `is_hot_key`, `in_cache`. -/
structure StatsOutput where
  access_count : Nat
  is_hot_key : Bool
  in_cache : Bool
  fallbackEvents : List FbEvent
  deriving DecidableEq, Repr

/-- Model of `Server.handleKeyStats`: report the live access count, hot status
and whether the fallback cache holds a non-empty value for the key
(the source reads the cache value, defaulting to `""`, and compares it
with `""`).  The state is not modified. -/
def handleKeyStats (s : Server) (key : String) (now : Nat) : StatsOutput :=
  let accessCount := s.hotKeyDet.GetAccessCount key now
  let isHotKey := s.hotKeyDet.IsHotKey key now
  let inCache := (s.localCache.Get key now).getD ""
  ⟨accessCount, isHotKey, inCache != "", [.lookup key]⟩

/-- Model of `Server.handleHotKeys`: return the detector's hot-key list. -/
def handleHotKeys (s : Server) : List String :=
  s.hotKeyDet.GetHotKeys

end Server

/-! ## Sequences of requests -/

/-- Run `handleGetKey` once per timestamp in `times` against a fixed
backing-store behaviour, threading the server state. -/
def runReads (s : Server) (store : GetOutcome) (key : String) :
    List Nat → List ReadOutput
  | [] => []
  | t :: ts =>
    let o := s.handleGetKey store key t
    o :: runReads o.state store key ts

/-- Run `RecordAccess` once per timestamp in `times`, collecting the
results and the final detector state. -/
def runRecords (d : HotKeyDetector) (key : String) :
    List Nat → List Bool × HotKeyDetector
  | [] => ([], d)
  | t :: ts =>
    let r := d.RecordAccess key t
    let rest := runRecords r.2 key ts
    (r.1 :: rest.1, rest.2)

/-- The detector after `n` calls to `RecordAccess key` at one instant. -/
def recordN (d : HotKeyDetector) (key : String) (t : Nat) : Nat → HotKeyDetector
  | 0 => d
  | n + 1 => ((recordN d key t n).RecordAccess key t).2

/-- Run `RateLimiter.Allow key` `n` times at one instant, collecting
the decisions and the final limiter state. -/
def runAllows (rl : RateLimiter) (key : String) (now : Nat) :
    Nat → List Bool × RateLimiter
  | 0 => ([], rl)
  | n + 1 =>
    let a := rl.Allow key now
    let rest := runAllows a.2 key now n
    (a.1 :: rest.1, rest.2)

/-! ## Basic lemmas about the components -/

/-- A key with no entry at all in a cache (live or expired). -/
def LocalCache.HasNoEntry {α : Type} (lc : LocalCache α) (key : String) : Prop :=
  lc.items.find? (fun e => e.1 == key) = none

theorem LocalCache.Get_of_HasNoEntry {α : Type} {lc : LocalCache α} {key : String}
    (h : lc.HasNoEntry key) (now : Nat) : lc.Get key now = none := by
  unfold LocalCache.HasNoEntry at h
  simp [LocalCache.Get, h]

namespace HotKeyDetector

theorem RecordAccess_of_hot {d : HotKeyDetector} {key : String} {now : Nat}
    (h : d.IsHotKey key now = true) : d.RecordAccess key now = (true, d) := by
  rcases ho : d.hotKeys.Get key now with _ | v
  · rw [IsHotKey, ho] at h; simp at h
  · simp [RecordAccess, ho]

theorem RecordAccess_of_cold {d : HotKeyDetector} {key : String} {now : Nat}
    (h : d.hotKeys.Get key now = none) :
    d.RecordAccess key now =
      (if d.config.Threshold ≤ d.GetAccessCount key now + 1 then
         (true, { d with
                   localCache := d.localCache.Set key
                     (d.GetAccessCount key now + 1) d.config.Window now,
                   hotKeys := d.hotKeys.Set key "true" d.config.HotKeyExpiration now })
       else
         (false, { d with
                    localCache := d.localCache.Set key
                      (d.GetAccessCount key now + 1) d.config.Window now })) := by
  rcases hc : d.localCache.Get key now with _ | c <;>
    simp [RecordAccess, GetAccessCount, h, hc]

theorem IsHotKey_false_of_no_flag {d : HotKeyDetector} {key : String} {now : Nat}
    (h : d.hotKeys.Get key now = none) : d.IsHotKey key now = false := by
  simp [IsHotKey, h]

theorem no_flag_of_RecordAccess_false {d : HotKeyDetector} {key : String} {now : Nat}
    (h : (d.RecordAccess key now).1 = false) : d.hotKeys.Get key now = none := by
  rcases ho : d.hotKeys.Get key now with _ | v
  · rfl
  · simp [RecordAccess, ho] at h

theorem IsHotKey_false_of_RecordAccess_false {d : HotKeyDetector} {key : String}
    {now : Nat} (h : (d.RecordAccess key now).1 = false) :
    d.IsHotKey key now = false :=
  IsHotKey_false_of_no_flag (no_flag_of_RecordAccess_false h)

/-- The access counter after a non-hot `RecordAccess` holds the
post-increment count under a fresh window deadline, whether or not the
threshold was crossed. -/
theorem counter_after_cold {d : HotKeyDetector} {key : String} {now : Nat}
    (h : d.hotKeys.Get key now = none) :
    (d.RecordAccess key now).2.localCache =
      d.localCache.Set key (d.GetAccessCount key now + 1) d.config.Window now := by
  rw [RecordAccess_of_cold h]
  by_cases hth : d.config.Threshold ≤ d.GetAccessCount key now + 1 <;> simp [hth]

/-- After a non-hot `RecordAccess`, the count read back at the same
instant is the post-increment count. -/
theorem GetAccessCount_after_cold {d : HotKeyDetector} {key : String} {now : Nat}
    (h : d.hotKeys.Get key now = none) :
    (d.RecordAccess key now).2.GetAccessCount key now
      = d.GetAccessCount key now + 1 := by
  have hc := counter_after_cold h
  have : (d.RecordAccess key now).2.GetAccessCount key now
      = match ((d.RecordAccess key now).2).localCache.Get key now with
        | some c => c
        | none => 0 := rfl
  rw [this, hc, LocalCache.Get_Set_self]
  simp [Nat.le_add_right]

end HotKeyDetector

/-- Model of `handleGetKey` updates the detector exactly by the initial
`RecordAccess`, whatever path the request then takes. -/
theorem Server.handleGetKey_det (s : Server) (store : GetOutcome) (key : String)
    (now : Nat) :
    (s.handleGetKey store key now).state.hotKeyDet =
      (s.hotKeyDet.RecordAccess key now).2 := by
  unfold Server.handleGetKey
  rcases hr : s.hotKeyDet.RecordAccess key now with ⟨b, d⟩
  rcases b
  · rcases hg : RedisClient.Get store with ⟨v, e⟩
    rcases e <;> simp [hg] <;> split <;> rfl
  · rcases hc : ({ s with hotKeyDet := d } : Server).localCache.Get key now with _ | v
    · simp only [hc]
      rcases ha : ({ s with hotKeyDet := d } : Server).rateLimiter.Allow key now
        with ⟨ok, rl'⟩
      rcases ok
      · simp [ha]
      · rcases hg : RedisClient.Get store with ⟨v, e⟩
        rcases e <;> simp [ha, hg] <;> split <;> rfl
    · simp [hc]

/-! ## Sample states used to instantiate the theorems -/

/-- A small detector configuration: threshold 3, window 10 ns, hot-flag
TTL 100 ns. -/
def cfg3 : HotKeyConfig := ⟨3, 10, 100⟩

/-- A detector with no records at all. -/
def freshDetector : HotKeyDetector := ⟨cfg3, ⟨[]⟩, ⟨[]⟩⟩

/-- A server with empty caches, a fresh detector and no buckets. -/
def emptyServer : Server := ⟨⟨[]⟩, freshDetector, ⟨DefaultRateLimiterConfig, []⟩⟩

/-- A detector holding a hot flag for `"k"` live through `t = 100` and
a count of 2 recorded with deadline 50. -/
def hotDetector : HotKeyDetector :=
  ⟨cfg3, ⟨[("k", ⟨2, 50⟩)]⟩, ⟨[("k", ⟨"true", 100⟩)]⟩⟩

/-- A server whose fallback cache holds `"v"` for the hot key `"k"`
through `t = 100`. -/
def hotServer : Server :=
  ⟨⟨[("k", ⟨"v", 100⟩)]⟩, hotDetector, ⟨DefaultRateLimiterConfig, []⟩⟩

/-! ## Claims -/

/-- Claim C1: `RecordAccess` follows the detection policy exactly: with a
live hot flag it returns true immediately and the detector (in
particular its access counter) is untouched; otherwise the key's
windowed count is incremented — restarting from 1 when the record is
absent or expired, since the live count then reads as 0 — and stored
under a fresh window deadline, and if the post-increment count reaches
`Threshold` the key is marked hot for `HotKeyExpiration` and the call
returns true, else it returns false leaving the hot-flag cache
untouched. -/
theorem claim_C1 (d : HotKeyDetector) (key : String) (now : Nat) :
    (d.IsHotKey key now = true → d.RecordAccess key now = (true, d)) ∧
    (d.IsHotKey key now = false →
      ((d.RecordAccess key now).2.localCache
          = d.localCache.Set key (d.GetAccessCount key now + 1)
              d.config.Window now) ∧
      ((d.RecordAccess key now).2.GetAccessCount key now
          = d.GetAccessCount key now + 1) ∧
      (d.config.Threshold ≤ d.GetAccessCount key now + 1 →
        (d.RecordAccess key now).1 = true ∧
        ∀ t, (d.RecordAccess key now).2.IsHotKey key t
            = decide (t ≤ now + d.config.HotKeyExpiration)) ∧
      (d.GetAccessCount key now + 1 < d.config.Threshold →
        (d.RecordAccess key now).1 = false ∧
        (d.RecordAccess key now).2.hotKeys = d.hotKeys)) := by
  constructor
  · exact fun h => HotKeyDetector.RecordAccess_of_hot h
  · intro h
    have hg : d.hotKeys.Get key now = none := by
      rcases ho : d.hotKeys.Get key now with _ | v
      · rfl
      · simp [HotKeyDetector.IsHotKey, ho] at h
    by_cases hth : d.config.Threshold ≤ d.GetAccessCount key now + 1
    · refine ⟨?_, HotKeyDetector.GetAccessCount_after_cold hg,
        fun _ => ⟨?_, fun t => ?_⟩, fun hlt => absurd hth (by omega)⟩
      · rw [HotKeyDetector.RecordAccess_of_cold hg, if_pos hth]
      · rw [HotKeyDetector.RecordAccess_of_cold hg, if_pos hth]
      · rw [HotKeyDetector.RecordAccess_of_cold hg, if_pos hth]
        show ((d.hotKeys.Set key "true" d.config.HotKeyExpiration now).Get
            key t).isSome = _
        rw [LocalCache.Get_Set_self]
        by_cases ht : t ≤ now + d.config.HotKeyExpiration <;> simp [ht]
    · refine ⟨?_, HotKeyDetector.GetAccessCount_after_cold hg,
        fun hge => absurd hge hth, fun _ => ⟨?_, ?_⟩⟩
      · rw [HotKeyDetector.RecordAccess_of_cold hg, if_neg hth]
      · rw [HotKeyDetector.RecordAccess_of_cold hg, if_neg hth]
      · rw [HotKeyDetector.RecordAccess_of_cold hg, if_neg hth]

/-- Witness for C1 at a concrete cold input: detector `freshDetector`,
key `"k"`, time 0 — the key is not hot, the count becomes 1, and with
`1 < 3 = Threshold` the call reports not-hot. -/
theorem claim_C1_witness :
    freshDetector.IsHotKey "k" 0 = false ∧
    (freshDetector.RecordAccess "k" 0).2.GetAccessCount "k" 0
        = freshDetector.GetAccessCount "k" 0 + 1 ∧
    freshDetector.GetAccessCount "k" 0 + 1 < freshDetector.config.Threshold ∧
    (freshDetector.RecordAccess "k" 0).1 = false :=
  ⟨by decide,
   ((claim_C1 freshDetector "k" 0).2 (by decide)).2.1,
   by decide,
   (((claim_C1 freshDetector "k" 0).2 (by decide)).2.2.2 (by decide)).1⟩

/-- A flag-free detector holding a live count of 2 for `"k"` (deadline
50), one short of `cfg3`'s threshold. -/
def warmDetector : HotKeyDetector := ⟨cfg3, ⟨[("k", ⟨2, 50⟩)]⟩, ⟨[]⟩⟩

/-- Claim C4: When an access pushes a key's windowed count to the
threshold, the key is marked hot on the spot and — with no further
operations at all — `IsHotKey` answers true at every instant up to and
including `t0 + HotKeyExpiration`, and false at every strictly later
instant, i.e. once the TTL has elapsed. -/
theorem claim_C4 (d : HotKeyDetector) (key : String) (t0 : Nat)
    (hflag : d.hotKeys.Get key t0 = none)
    (hcross : d.config.Threshold ≤ d.GetAccessCount key t0 + 1) :
    (d.RecordAccess key t0).1 = true ∧
    ∀ now, ((d.RecordAccess key t0).2.IsHotKey key now = true
        ↔ now ≤ t0 + d.config.HotKeyExpiration) := by
  rw [HotKeyDetector.RecordAccess_of_cold hflag, if_pos hcross]
  refine ⟨rfl, fun now => ?_⟩
  show ((d.hotKeys.Set key "true" d.config.HotKeyExpiration t0).Get
      key now).isSome = true ↔ _
  rw [LocalCache.Get_Set_self]
  by_cases h : now ≤ t0 + d.config.HotKeyExpiration <;> simp [h]

/-- Witness for C4: `warmDetector` has count 2 and threshold 3, so an
access at `t0 = 0` crosses; the flag is live at 100 = `0 + 100` and
dead at 101. -/
theorem claim_C4_witness :
    warmDetector.hotKeys.Get "k" 0 = none ∧
    warmDetector.config.Threshold ≤ warmDetector.GetAccessCount "k" 0 + 1 ∧
    (warmDetector.RecordAccess "k" 0).1 = true ∧
    ((warmDetector.RecordAccess "k" 0).2.IsHotKey "k" 100 = true
        ↔ 100 ≤ 0 + warmDetector.config.HotKeyExpiration) ∧
    ((warmDetector.RecordAccess "k" 0).2.IsHotKey "k" 101 = true
        ↔ 101 ≤ 0 + warmDetector.config.HotKeyExpiration) :=
  ⟨by decide, by decide,
   (claim_C4 warmDetector "k" 0 (by decide) (by decide)).1,
   (claim_C4 warmDetector "k" 0 (by decide) (by decide)).2 100,
   (claim_C4 warmDetector "k" 0 (by decide) (by decide)).2 101⟩

/-- While a key's hot flag is live at every access time, the whole
access sequence returns true and the detector — access counter
included — is untouched. -/
theorem runRecords_hot (d : HotKeyDetector) (key : String) :
    ∀ (times : List Nat), (∀ t ∈ times, d.IsHotKey key t = true) →
      runRecords d key times = (List.replicate times.length true, d)
  | [], _ => rfl
  | t :: ts, h => by
    have h1 := HotKeyDetector.RecordAccess_of_hot (h t (by simp))
    have h2 := runRecords_hot d key ts (fun u hu => h u (by simp [hu]))
    simp [runRecords, h1, h2, List.replicate_succ]

/-- Claim C10: While a live hot flag exists, `RecordAccess` returns true
without touching the access counter: any sequence of accesses at times
when the flag is live returns all-true and leaves the detector state
exactly as it was, so `GetAccessCount` reports the same value as
before the sequence at every instant — the count frozen when the
threshold was crossed while its window lasts, and 0 at any instant
past the record's window deadline. -/
theorem claim_C10 (d : HotKeyDetector) (key : String) (times : List Nat)
    (hhot : ∀ t ∈ times, d.IsHotKey key t = true) :
    runRecords d key times = (List.replicate times.length true, d) ∧
    (∀ t', (runRecords d key times).2.GetAccessCount key t'
        = d.GetAccessCount key t') ∧
    (∀ e, d.localCache.items.find? (fun x => x.1 == key) = some e →
      ∀ t', e.2.expiresAt < t' →
        (runRecords d key times).2.GetAccessCount key t' = 0) := by
  have main := runRecords_hot d key times hhot
  refine ⟨main, fun t' => by rw [main], fun e he t' ht' => ?_⟩
  rw [main]
  have hnone : d.localCache.Get key t' = none := by
    simp only [LocalCache.Get, he]
    rw [if_neg (by omega)]
  simp [HotKeyDetector.GetAccessCount, hnone]

/-- Witness for C10: `hotDetector`'s flag lives through 100; three
accesses at 0, 50, 100 all return true and leave the state unchanged,
the frozen count 2 still reads back at 50, and reads as 0 at 51, past
its window deadline 50. -/
theorem claim_C10_witness :
    (∀ t ∈ [0, 50, 100], hotDetector.IsHotKey "k" t = true) ∧
    runRecords hotDetector "k" [0, 50, 100]
        = (List.replicate 3 true, hotDetector) ∧
    (runRecords hotDetector "k" [0, 50, 100]).2.GetAccessCount "k" 50
        = hotDetector.GetAccessCount "k" 50 ∧
    (runRecords hotDetector "k" [0, 50, 100]).2.GetAccessCount "k" 51 = 0 :=
  ⟨by decide,
   (claim_C10 hotDetector "k" [0, 50, 100] (by decide)).1,
   (claim_C10 hotDetector "k" [0, 50, 100] (by decide)).2.1 50,
   (claim_C10 hotDetector "k" [0, 50, 100] (by decide)).2.2
     ("k", ⟨2, 50⟩) (by decide) 51 (by decide)⟩

/-- Invariant of `recordN` on a key with no prior record and no flag:
as long as the count stays below the threshold, the count at the
access instant equals the number of accesses and the flag cache is
untouched. -/
theorem recordN_cold_inv (d : HotKeyDetector) (key : String) (t : Nat)
    (hc : d.localCache.HasNoEntry key) (hh : d.hotKeys.HasNoEntry key) :
    ∀ m, m < d.config.Threshold →
      (recordN d key t m).GetAccessCount key t = m ∧
      (recordN d key t m).hotKeys = d.hotKeys ∧
      (recordN d key t m).config = d.config
  | 0, _ => by
    refine ⟨?_, rfl, rfl⟩
    simp [recordN, HotKeyDetector.GetAccessCount,
      LocalCache.Get_of_HasNoEntry hc]
  | m + 1, hm => by
    obtain ⟨hcnt, hkeys, hcfg⟩ :=
      recordN_cold_inv d key t hc hh m (by omega)
    have hflag : (recordN d key t m).hotKeys.Get key t = none := by
      rw [hkeys]; exact LocalCache.Get_of_HasNoEntry hh t
    refine ⟨?_, ?_, ?_⟩
    · show ((recordN d key t m).RecordAccess key t).2.GetAccessCount key t = m + 1
      rw [HotKeyDetector.GetAccessCount_after_cold hflag, hcnt]
    · show ((recordN d key t m).RecordAccess key t).2.hotKeys = d.hotKeys
      rw [HotKeyDetector.RecordAccess_of_cold hflag,
        if_neg (by rw [hcnt, hcfg]; omega)]
      exact hkeys
    · show ((recordN d key t m).RecordAccess key t).2.config = d.config
      rw [HotKeyDetector.RecordAccess_of_cold hflag]
      split <;> exact hcfg

/-- Claim C9: Starting from no record and no flag, after exactly
`Threshold - 1` accesses at one instant the stats endpoint reports an
access count of `Threshold - 1` and not-hot; the `Threshold`-th access
flips the reported hot status to true. -/
theorem claim_C9 (d : HotKeyDetector) (lc : LocalCache String)
    (rl : RateLimiter) (key : String) (t : Nat)
    (hthr : 1 ≤ d.config.Threshold)
    (hc : d.localCache.HasNoEntry key) (hh : d.hotKeys.HasNoEntry key) :
    ((⟨lc, recordN d key t (d.config.Threshold - 1), rl⟩ : Server).handleKeyStats
        key t).access_count = d.config.Threshold - 1 ∧
    ((⟨lc, recordN d key t (d.config.Threshold - 1), rl⟩ : Server).handleKeyStats
        key t).is_hot_key = false ∧
    ((⟨lc, recordN d key t d.config.Threshold, rl⟩ : Server).handleKeyStats
        key t).is_hot_key = true := by
  obtain ⟨hcnt, hkeys, hcfg⟩ :=
    recordN_cold_inv d key t hc hh (d.config.Threshold - 1) (by omega)
  have hflag : (recordN d key t (d.config.Threshold - 1)).hotKeys.Get key t
      = none := by
    rw [hkeys]; exact LocalCache.Get_of_HasNoEntry hh t
  refine ⟨hcnt, ?_, ?_⟩
  · show (recordN d key t (d.config.Threshold - 1)).IsHotKey key t = false
    exact HotKeyDetector.IsHotKey_false_of_no_flag hflag
  · show (recordN d key t d.config.Threshold).IsHotKey key t = true
    have hsucc : d.config.Threshold = (d.config.Threshold - 1) + 1 := by omega
    rw [hsucc]
    show (((recordN d key t (d.config.Threshold - 1)).RecordAccess key t).2).IsHotKey
        key t = true
    rw [HotKeyDetector.RecordAccess_of_cold hflag,
      if_pos (by rw [hcnt, hcfg]; omega)]
    show ((((recordN d key t (d.config.Threshold - 1)).hotKeys).Set key "true"
        _ t).Get key t).isSome = true
    rw [LocalCache.Get_Set_self]
    simp [Nat.le_add_right]

/-- Witness for C9 with `freshDetector` (threshold 3): 2 accesses at
`t = 0` report count 2 and cold; the 3rd flips hot. -/
theorem claim_C9_witness :
    1 ≤ freshDetector.config.Threshold ∧
    ((⟨⟨[]⟩, recordN freshDetector "k" 0 2, ⟨DefaultRateLimiterConfig, []⟩⟩ :
        Server).handleKeyStats "k" 0).access_count = 2 ∧
    ((⟨⟨[]⟩, recordN freshDetector "k" 0 2, ⟨DefaultRateLimiterConfig, []⟩⟩ :
        Server).handleKeyStats "k" 0).is_hot_key = false ∧
    ((⟨⟨[]⟩, recordN freshDetector "k" 0 3, ⟨DefaultRateLimiterConfig, []⟩⟩ :
        Server).handleKeyStats "k" 0).is_hot_key = true :=
  ⟨by decide,
   (claim_C9 freshDetector ⟨[]⟩ ⟨DefaultRateLimiterConfig, []⟩ "k" 0
     (by decide) rfl rfl).1,
   (claim_C9 freshDetector ⟨[]⟩ ⟨DefaultRateLimiterConfig, []⟩ "k" 0
     (by decide) rfl rfl).2.1,
   (claim_C9 freshDetector ⟨[]⟩ ⟨DefaultRateLimiterConfig, []⟩ "k" 0
     (by decide) rfl rfl).2.2⟩

/-- A detector whose threshold of 1 lets a single access mark a key. -/
def oneShotDetector : HotKeyDetector := ⟨⟨1, 10, 100⟩, ⟨[]⟩, ⟨[]⟩⟩

/-- Claim C7 (code bug): `GetHotKeys` is a stub: right after `"k"` is
marked hot — `IsHotKey` confirms a live flag — `GetHotKeys` (and the
`/hot-keys` endpoint built on it) still returns the empty list instead
of `["k"]`, contradicting its own "get all hot keys" contract. -/
theorem claim_C7_stub :
    ((oneShotDetector.RecordAccess "k" 0).2.IsHotKey "k" 0 = true) ∧
    (oneShotDetector.RecordAccess "k" 0).2.GetHotKeys = [] ∧
    (⟨⟨[]⟩, (oneShotDetector.RecordAccess "k" 0).2,
        ⟨DefaultRateLimiterConfig, []⟩⟩ : Server).handleHotKeys = [] := by
  decide

/-- Claim C5, counterexample: `"k"` has never been flagged hot in
`emptyServer` — `IsHotKey` is false and the flag cache is empty — yet
the stats operation looks the key up in the fallback cache (the source
reads `s.localCache.Get(key)` unconditionally), refuting "no operation
of the cascade ever looks a never-hot key up in the fallback cache". -/
theorem claim_C5_counterexample :
    emptyServer.hotKeyDet.IsHotKey "k" 0 = false ∧
    emptyServer.hotKeyDet.hotKeys.items = [] ∧
    (emptyServer.handleKeyStats "k" 0).fallbackEvents = [.lookup "k"] := by
  decide

/-- Claim C5, amended: For a key the request leaves cold (`RecordAccess`
answers false), the read path performs no fallback-cache operation and
the write path bypasses cache population, each leaving the fallback
cache unchanged; the stats path, however, always performs exactly one
fallback-cache lookup of the key (and never writes it). -/
theorem claim_C5_amended (s : Server) (store : GetOutcome) (key value : String)
    (now : Nat) (setFails : Bool)
    (hcold : (s.hotKeyDet.RecordAccess key now).1 = false) :
    (s.handleGetKey store key now).fallbackEvents = [] ∧
    (s.handleGetKey store key now).state.localCache = s.localCache ∧
    (s.handleSetKey setFails key value now).fallbackEvents = [] ∧
    (s.handleSetKey setFails key value now).state.localCache = s.localCache ∧
    (s.handleKeyStats key now).fallbackEvents = [FbEvent.lookup key] := by
  have hnothot := HotKeyDetector.IsHotKey_false_of_RecordAccess_false hcold
  rcases hr : s.hotKeyDet.RecordAccess key now with ⟨b, det⟩
  rw [hr] at hcold
  subst hcold
  have hget : (s.handleGetKey store key now).fallbackEvents = [] ∧
      (s.handleGetKey store key now).state.localCache = s.localCache := by
    rcases hg : RedisClient.Get store with ⟨gv, ge⟩
    rcases ge
    · by_cases hv : gv = "" <;> simp [Server.handleGetKey, hr, hg, hv]
    · simp [Server.handleGetKey, hr, hg]
  have hset : (s.handleSetKey setFails key value now).fallbackEvents = [] ∧
      (s.handleSetKey setFails key value now).state.localCache = s.localCache := by
    by_cases hv : value = ""
    · simp [Server.handleSetKey, hv]
    · rcases setFails <;> simp [Server.handleSetKey, hv, hnothot]
  exact ⟨hget.1, hget.2, hset.1, hset.2, rfl⟩

/-- Witness for the amended C5 at `emptyServer`: the request leaves
`"k"` cold, the read and write paths generate no fallback-cache
events, and stats performs the lone lookup. -/
theorem claim_C5_amended_witness :
    (emptyServer.hotKeyDet.RecordAccess "k" 0).1 = false ∧
    (emptyServer.handleGetKey (.success (some "v")) "k" 0).fallbackEvents = [] ∧
    (emptyServer.handleSetKey false "k" "v" 0).fallbackEvents = [] ∧
    (emptyServer.handleKeyStats "k" 0).fallbackEvents = [FbEvent.lookup "k"] :=
  ⟨by decide,
   (claim_C5_amended emptyServer (.success (some "v")) "k" "v" 0 false
     (by decide)).1,
   (claim_C5_amended emptyServer (.success (some "v")) "k" "v" 0 false
     (by decide)).2.2.1,
   (claim_C5_amended emptyServer (.success (some "v")) "k" "v" 0 false
     (by decide)).2.2.2.2⟩

/-- Claim C8, counterexample: A read request with the empty key is not
rejected: `handleGetKey` has no key validation, so the request records
an access for `""` (the access counter — a component — is written,
reading back 1) and the response is a plain NOT_FOUND, not an
invalid-key rejection. -/
theorem claim_C8_counterexample :
    (emptyServer.handleGetKey (.success none) "" 0).result = .notFound ∧
    (emptyServer.handleGetKey (.success none) "" 0).state.hotKeyDet.GetAccessCount
        "" 0 = 1 := by
  decide

/-- Claim C8, amended: The handlers perform no key validation: an
empty-key read is processed like any other, incrementing the empty
key's access counter (shown here for a not-yet-hot empty key). The
only rejection that happens before any component is touched is
`handleSetKey`'s empty-*value* check, which returns 400 leaving the
state untouched, the store uninvoked and the fallback cache unread;
empty keys are excluded only by the out-of-scope routing layer. -/
theorem claim_C8_amended (s : Server) (store : GetOutcome) (key : String)
    (now : Nat) (setFails : Bool)
    (hflag : s.hotKeyDet.hotKeys.Get "" now = none) :
    s.handleSetKey setFails key "" now
        = ⟨.badRequest, s, false, []⟩ ∧
    (s.handleGetKey store "" now).state.hotKeyDet.GetAccessCount "" now
        = s.hotKeyDet.GetAccessCount "" now + 1 := by
  refine ⟨by simp [Server.handleSetKey], ?_⟩
  rw [Server.handleGetKey_det]
  exact HotKeyDetector.GetAccessCount_after_cold hflag

/-- Witness for the amended C8 at `emptyServer`: the empty-value write
is rejected untouched and an empty-key read bumps the counter 0 → 1. -/
theorem claim_C8_amended_witness :
    emptyServer.hotKeyDet.hotKeys.Get "" 0 = none ∧
    emptyServer.handleSetKey false "x" "" 0
        = ⟨.badRequest, emptyServer, false, []⟩ ∧
    (emptyServer.handleGetKey (.success none) "" 0).state.hotKeyDet.GetAccessCount
        "" 0 = emptyServer.hotKeyDet.GetAccessCount "" 0 + 1 :=
  ⟨by decide,
   (claim_C8_amended emptyServer (.success none) "x" 0 false (by decide)).1,
   (claim_C8_amended emptyServer (.success none) "x" 0 false (by decide)).2⟩

/-- Any counter record for `key` (live or expired) has count ≤ `n`. -/
def counterBound (d : HotKeyDetector) (key : String) (n : Nat) : Prop :=
  ∀ e, d.localCache.items.find? (fun x => x.1 == key) = some e →
    e.2.value ≤ n

theorem counterBound_of_HasNoEntry {d : HotKeyDetector} {key : String}
    (h : d.localCache.HasNoEntry key) (n : Nat) : counterBound d key n := by
  intro e he
  unfold LocalCache.HasNoEntry at h
  rw [h] at he
  cases he

theorem GetAccessCount_le_of_counterBound {d : HotKeyDetector} {key : String}
    {n : Nat} (h : counterBound d key n) (t : Nat) :
    d.GetAccessCount key t ≤ n := by
  unfold HotKeyDetector.GetAccessCount LocalCache.Get
  rcases he : d.localCache.items.find? (fun x => x.1 == key) with _ | e
  · rw [he]; exact Nat.zero_le n
  · rw [he]
    have hval := h e he
    by_cases ht : t ≤ e.2.expiresAt
    · simpa [ht] using hval
    · simp [ht]

@[simp] theorem find_Set_self {α : Type} (lc : LocalCache α) (key : String)
    (v : α) (d now : Nat) :
    (lc.Set key v d now).items.find? (fun x => x.1 == key)
      = some (key, ⟨v, now + d⟩) := by
  simp [LocalCache.Set, List.find?]

/-- One cold read: a key with no live flag whose post-increment count
stays below the threshold goes straight to the backing store, touches
no fallback-cache state, and only the access record changes. -/
theorem handleGetKey_cold (s : Server) (v key : String) (t n : Nat)
    (hv : v ≠ "")
    (hflag : s.hotKeyDet.hotKeys.HasNoEntry key)
    (hcnt : counterBound s.hotKeyDet key n)
    (hlt : n + 1 < s.hotKeyDet.config.Threshold) :
    s.handleGetKey (.success (some v)) key t =
      ⟨.value v .redis,
       ⟨s.localCache,
        { s.hotKeyDet with
           localCache := s.hotKeyDet.localCache.Set key
             (s.hotKeyDet.GetAccessCount key t + 1)
             s.hotKeyDet.config.Window t },
        s.rateLimiter⟩,
       true, []⟩ := by
  have hfl : s.hotKeyDet.hotKeys.Get key t = none :=
    LocalCache.Get_of_HasNoEntry hflag t
  have hth : ¬ s.hotKeyDet.config.Threshold
      ≤ s.hotKeyDet.GetAccessCount key t + 1 := by
    have := GetAccessCount_le_of_counterBound hcnt t
    omega
  have hr : s.hotKeyDet.RecordAccess key t =
      (false, { s.hotKeyDet with
                 localCache := s.hotKeyDet.localCache.Set key
                   (s.hotKeyDet.GetAccessCount key t + 1)
                   s.hotKeyDet.config.Window t }) := by
    rw [HotKeyDetector.RecordAccess_of_cold hfl, if_neg hth]
  simp [Server.handleGetKey, hr, RedisClient.Get, hv]

/-- Repeated cold reads: while the key has no flag entry and the count
cannot reach the threshold within the sequence, every read reaches the
backing store, returns the store value, and performs no fallback-cache
operation. -/
theorem runReads_cold (v key : String) (hv : v ≠ "") :
    ∀ (times : List Nat) (s : Server) (n : Nat),
      s.hotKeyDet.hotKeys.HasNoEntry key →
      counterBound s.hotKeyDet key n →
      n + times.length < s.hotKeyDet.config.Threshold →
      ∀ o ∈ runReads s (.success (some v)) key times,
        o.result = .value v .redis ∧ o.storeInvoked = true ∧
        o.fallbackEvents = [] ∧ o.state.localCache = s.localCache
  | [], _, _, _, _, _ => by simp [runReads]
  | t :: ts, s, n, hflag, hcnt, hlen => by
    have hlt : n + 1 < s.hotKeyDet.config.Threshold := by
      simp [List.length_cons] at hlen; omega
    have hstep := handleGetKey_cold s v key t n hv hflag hcnt hlt
    intro o ho
    rw [runReads] at ho
    rcases List.mem_cons.1 ho with rfl | ho'
    · rw [hstep]
      exact ⟨rfl, rfl, rfl, rfl⟩
    · have hstate : (s.handleGetKey (.success (some v)) key t).state
          = ⟨s.localCache,
             { s.hotKeyDet with
                localCache := s.hotKeyDet.localCache.Set key
                  (s.hotKeyDet.GetAccessCount key t + 1)
                  s.hotKeyDet.config.Window t },
             s.rateLimiter⟩ := by
        rw [hstep]
      rw [hstate] at ho'
      have hb : counterBound
          ({ s.hotKeyDet with
              localCache := s.hotKeyDet.localCache.Set key
                (s.hotKeyDet.GetAccessCount key t + 1)
                s.hotKeyDet.config.Window t } : HotKeyDetector) key (n + 1) := by
        intro e he
        have he' : (s.hotKeyDet.localCache.Set key
            (s.hotKeyDet.GetAccessCount key t + 1)
            s.hotKeyDet.config.Window t).items.find?
              (fun x => x.1 == key) = some e := he
        rw [find_Set_self] at he'
        cases he'
        exact Nat.add_le_add_right (GetAccessCount_le_of_counterBound hcnt t) 1
      have hlen' : (n + 1) + ts.length < s.hotKeyDet.config.Threshold := by
        simp [List.length_cons] at hlen
        omega
      have hnext := runReads_cold v key hv ts
        ⟨s.localCache,
         { s.hotKeyDet with
            localCache := s.hotKeyDet.localCache.Set key
              (s.hotKeyDet.GetAccessCount key t + 1)
              s.hotKeyDet.config.Window t },
         s.rateLimiter⟩ (n + 1) hflag hb hlen' o ho'
      exact ⟨hnext.1, hnext.2.1, hnext.2.2.1, hnext.2.2.2⟩

/-- One hot read with a warm fallback entry: the cached value is
served, the backing store is not invoked, and the entire server state
is unchanged. -/
theorem handleGetKey_hit (s : Server) (store : GetOutcome) (key v : String)
    (t : Nat)
    (hhot : s.hotKeyDet.IsHotKey key t = true)
    (hcache : s.localCache.Get key t = some v) :
    s.handleGetKey store key t
      = ⟨.value v .local_cache, s, false, [.lookup key]⟩ := by
  have hr := HotKeyDetector.RecordAccess_of_hot hhot
  simp [Server.handleGetKey, hr, hcache]

/-- Repeated hot reads against a warm entry: every read is served from
the cache with the store never re-invoked, and the state never
changes. -/
theorem runReads_hit (store : GetOutcome) (key v : String) :
    ∀ (times : List Nat) (s : Server),
      (∀ t ∈ times, s.hotKeyDet.IsHotKey key t = true ∧
        s.localCache.Get key t = some v) →
      ∀ o ∈ runReads s store key times,
        o = ⟨.value v .local_cache, s, false, [.lookup key]⟩
  | [], _, _ => by simp [runReads]
  | t :: ts, s, h => by
    have hstep := handleGetKey_hit s store key v t (h t (by simp)).1
      (h t (by simp)).2
    intro o ho
    rw [runReads] at ho
    rcases List.mem_cons.1 ho with rfl | ho'
    · rw [hstep]
    · rw [hstep] at ho'
      exact runReads_hit store key v ts s
        (fun u hu => h u (by simp [hu])) o ho'

/-- Claim C2: Read-path idempotence.  First: for a key with no hot flag
and no access record that stays cold throughout (fewer reads than the
threshold), every repeated read reaches the backing store, returns the
unchanged store value, and never consults the fallback cache.  Second:
for a hot key with a warm fallback entry at every read instant, every
repeated read returns the cached value without re-invoking the backing
store, and the state (hence the entry and its TTL) never changes. -/
theorem claim_C2 :
    (∀ (s : Server) (v key : String) (times : List Nat),
      v ≠ "" →
      s.hotKeyDet.hotKeys.HasNoEntry key →
      s.hotKeyDet.localCache.HasNoEntry key →
      times.length < s.hotKeyDet.config.Threshold →
      ∀ o ∈ runReads s (.success (some v)) key times,
        o.result = .value v .redis ∧ o.storeInvoked = true ∧
        o.fallbackEvents = []) ∧
    (∀ (s : Server) (store : GetOutcome) (v key : String) (times : List Nat),
      (∀ t ∈ times, s.hotKeyDet.IsHotKey key t = true ∧
        s.localCache.Get key t = some v) →
      ∀ o ∈ runReads s store key times,
        o.result = .value v .local_cache ∧ o.storeInvoked = false ∧
        o.state = s) := by
  constructor
  · intro s v key times hv hflag hc hlen o ho
    have := runReads_cold v key hv times s 0 hflag
      (counterBound_of_HasNoEntry hc 0) (by omega) o ho
    exact ⟨this.1, this.2.1, this.2.2.1⟩
  · intro s store v key times h o ho
    have := runReads_hit store key v times s h o ho
    rw [this]
    exact ⟨rfl, rfl, rfl⟩

/-- Witness for C2: two cold reads of `"k"` on `emptyServer`
(threshold 3) both hit the store with no cache events; two hot reads
on `hotServer` (flag and entry live through 100) are both served from
the cache with the state unchanged. -/
theorem claim_C2_witness :
    (∀ o ∈ runReads emptyServer (.success (some "v")) "k" [0, 0],
      o.result = .value "v" .redis ∧ o.storeInvoked = true ∧
      o.fallbackEvents = []) ∧
    (∀ o ∈ runReads hotServer (.success (some "w")) "k" [0, 100],
      o.result = .value "v" .local_cache ∧ o.storeInvoked = false ∧
      o.state = hotServer) :=
  ⟨claim_C2.1 emptyServer "v" "k" [0, 0] (by decide) rfl rfl (by decide),
   claim_C2.2 hotServer (.success (some "w")) "v" "k" [0, 100] (by decide)⟩

/-- Any read that invoked the backing store reports exactly what
`RedisClient.Get` produced: 500 on error, 404 on an empty value, the
value tagged `redis` otherwise. -/
theorem Server.handleGetKey_store_spec (s : Server) (store : GetOutcome)
    (key : String) (now : Nat)
    (h : (s.handleGetKey store key now).storeInvoked = true) :
    (s.handleGetKey store key now).result =
      (if (RedisClient.Get store).2 then .storeError
       else if (RedisClient.Get store).1 = "" then .notFound
       else .value (RedisClient.Get store).1 .redis) := by
  rcases hr : s.hotKeyDet.RecordAccess key now with ⟨b, det⟩
  rcases hg : RedisClient.Get store with ⟨gv, ge⟩
  rcases b
  · rcases ge
    · by_cases hv : gv = "" <;> simp [Server.handleGetKey, hr, hg, hv]
    · simp [Server.handleGetKey, hr, hg]
  · rcases hc : s.localCache.Get key now with _ | v
    · rcases ha : s.rateLimiter.Allow key now with ⟨ok, rl2⟩
      rcases ok
      · exfalso
        simp [Server.handleGetKey, hr, hc, ha] at h
      · rcases ge
        · by_cases hv : gv = "" <;>
            simp [Server.handleGetKey, hr, hc, ha, hg, hv]
        · simp [Server.handleGetKey, hr, hc, ha, hg]
    · exfalso
      simp [Server.handleGetKey, hr, hc] at h

/-- Claim C6, counterexample: The backing store holds `"k"` (present,
with the empty string as its value — `GetOutcome.success (some "")`),
yet the read reaches the store and reports NOT_FOUND: the code uses
the empty string as an in-band absence marker, so NOT_FOUND is not
equivalent to "key absent in the backing store". -/
theorem claim_C6_counterexample :
    (emptyServer.handleGetKey (.success (some "")) "k" 0).storeInvoked = true ∧
    (emptyServer.handleGetKey (.success (some "")) "k" 0).result
        = .notFound := by
  decide

/-- Claim C6, amended: For every read whose backing-store call happens
and does not fail, the result is NOT_FOUND iff the key is absent *or*
present with the empty-string value (`RedisClient.Get` collapses
absence to `""`); a failing store call that happens yields the store
error; and NOT_FOUND, THROTTLED and store failure remain three
mutually distinct outcomes. -/
theorem claim_C6_amended (s : Server) (key : String) (now : Nat)
    (pres : Option String)
    (hstore : (s.handleGetKey (.success pres) key now).storeInvoked = true) :
    ((s.handleGetKey (.success pres) key now).result = .notFound
        ↔ (pres = none ∨ pres = some "")) ∧
    (∀ (s2 : Server) (key2 : String) (now2 : Nat),
      (s2.handleGetKey .failure key2 now2).storeInvoked = true →
      (s2.handleGetKey .failure key2 now2).result = .storeError) ∧
    (ReadResult.notFound ≠ .throttled ∧ ReadResult.notFound ≠ .storeError ∧
      ReadResult.throttled ≠ .storeError) := by
  refine ⟨?_, ?_, by simp, by simp, by simp⟩
  · rw [Server.handleGetKey_store_spec s (.success pres) key now hstore]
    rcases pres with _ | v
    · simp [RedisClient.Get]
    · by_cases hv : v = "" <;> simp [RedisClient.Get, hv]
  · intro s2 key2 now2 h2
    rw [Server.handleGetKey_store_spec s2 .failure key2 now2 h2]
    simp [RedisClient.Get]

/-- Witness for the amended C6: a cold read of `"k"` on `emptyServer`
invokes the store; with the key present as `"x"` the result is not
NOT_FOUND, matching the right-hand side being false. -/
theorem claim_C6_witness :
    (emptyServer.handleGetKey (.success (some "x")) "k" 0).storeInvoked
        = true ∧
    ((emptyServer.handleGetKey (.success (some "x")) "k" 0).result
        = .notFound ↔ (some "x" = none ∨ some "x" = some "")) :=
  ⟨by decide, (claim_C6_amended emptyServer "k" 0 (some "x") (by decide)).1⟩

/-- One projection step of `runAllows`. -/
theorem runAllows_succ (rl : RateLimiter) (key : String) (now n : Nat) :
    (runAllows rl key now (n + 1)).1
      = (rl.Allow key now).1
        :: (runAllows (rl.Allow key now).2 key now n).1 := rfl

/-- Model of `rate.Limiter.Allow` with zero elapsed time since the last commit
and a bucket within its cap: admit iff a whole token is available. -/
theorem Limiter.Allow_zero_elapsed (b : Limiter) (now : Nat)
    (hlast : b.last = now) (htok : b.tokens ≤ (b.burst : ℚ)) :
    b.Allow now = if 1 ≤ b.burst ∧ 1 ≤ b.tokens
      then (true, { b with tokens := b.tokens - 1, last := now })
      else (false, b) := by
  simp only [Limiter.Allow, hlast, Nat.sub_self, Nat.cast_zero, zero_mul,
    zero_div, add_zero, min_eq_right htok, sub_nonneg]

/-- The first `Allow` on a fresh bucket: the advance is capped at the
burst (the bucket starts full), so the call succeeds — debiting one
token and committing `now` — iff the burst is at least 1. -/
theorem Limiter.Allow_fresh (r : ℚ) (bs : Nat) (now : Nat) (hr : 0 ≤ r) :
    (Limiter.New r bs).Allow now
      = if 1 ≤ bs then (true, ⟨r, bs, (bs : ℚ) - 1, now⟩)
        else (false, Limiter.New r bs) := by
  have hd : (0 : ℚ) ≤ ((now - 0 : Nat) : ℚ) * r / 1000000000 :=
    div_nonneg (mul_nonneg (Nat.cast_nonneg _) hr) (by norm_num)
  have hadv : min ((bs : ℚ))
      ((bs : ℚ) + ((now - 0 : Nat) : ℚ) * r / 1000000000) = (bs : ℚ) :=
    min_eq_left (le_add_of_nonneg_right hd)
  show (if 1 ≤ bs ∧ 0 ≤ min ((bs : ℚ))
          ((bs : ℚ) + ((now - 0 : Nat) : ℚ) * r / 1000000000) - 1
        then (true, ⟨r, bs,
          min ((bs : ℚ))
            ((bs : ℚ) + ((now - 0 : Nat) : ℚ) * r / 1000000000) - 1, now⟩)
        else (false, Limiter.New r bs)) = _
  rw [hadv]
  by_cases hbs : 1 ≤ bs
  · rw [if_pos ⟨hbs, by rw [sub_nonneg]; exact_mod_cast hbs⟩, if_pos hbs]
  · rw [if_neg (fun hh => hbs hh.1), if_neg hbs]

/-- After the key's bucket sits at the head of the map with `j` whole
tokens, zero elapsed time and a burst of at least `j`, the next `j+1`
calls return `j` admissions followed by one denial. -/
theorem runAllows_loop (cfg : RateLimiterConfig) (key : String) (now : Nat) :
    ∀ (j : Nat) (b : Limiter) (rest : List (String × Limiter)),
      b.tokens = (j : ℚ) → j ≤ b.burst → b.last = now →
      (runAllows ⟨cfg, (key, b) :: rest⟩ key now (j + 1)).1
        = List.replicate j true ++ [false]
  | 0, b, rest, htok, hj, hlast => by
    have hble : b.tokens ≤ (b.burst : ℚ) := by
      rw [htok]; exact_mod_cast Nat.zero_le _
    have hb : b.Allow now = (false, b) := by
      rw [Limiter.Allow_zero_elapsed b now hlast hble,
        if_neg (fun hh => by rw [htok] at hh; exact absurd hh.2 (by norm_num))]
    have hfind : ((key, b) :: rest).find? (fun x => x.1 == key)
        = some (key, b) := by simp [List.find?]
    have hAllow : (⟨cfg, (key, b) :: rest⟩ : RateLimiter).Allow key now
        = (false, ⟨cfg, (key, b) :: (key, b) :: rest⟩) := by
      simp [RateLimiter.Allow, RateLimiter.getLimiter, hfind, hb]
    rw [runAllows_succ, hAllow]
    rfl
  | j + 1, b, rest, htok, hj, hlast => by
    have hble : b.tokens ≤ (b.burst : ℚ) := by
      rw [htok]; exact_mod_cast hj
    have hb : b.Allow now
        = (true, { b with tokens := b.tokens - 1, last := now }) := by
      rw [Limiter.Allow_zero_elapsed b now hlast hble,
        if_pos ⟨by omega, by rw [htok]; exact_mod_cast Nat.succ_le_succ (Nat.zero_le j)⟩]
    have hfind : ((key, b) :: rest).find? (fun x => x.1 == key)
        = some (key, b) := by simp [List.find?]
    have hAllow : (⟨cfg, (key, b) :: rest⟩ : RateLimiter).Allow key now
        = (true, ⟨cfg,
            (key, { b with tokens := b.tokens - 1, last := now })
              :: (key, b) :: rest⟩) := by
      simp [RateLimiter.Allow, RateLimiter.getLimiter, hfind, hb]
    have htok2 : ({ b with tokens := b.tokens - 1, last := now } : Limiter).tokens
        = (j : ℚ) := by
      show b.tokens - 1 = (j : ℚ)
      rw [htok]; push_cast; ring
    have ih := runAllows_loop cfg key now j
      { b with tokens := b.tokens - 1, last := now } ((key, b) :: rest)
      htok2 (by show j ≤ b.burst; omega) rfl
    rw [runAllows_succ, hAllow]
    show true :: (runAllows ⟨cfg,
        (key, { b with tokens := b.tokens - 1, last := now })
          :: (key, b) :: rest⟩ key now (j + 1)).1 = _
    rw [ih, List.replicate_succ]
    rfl

/-- Claim C3: For a fresh key (no existing bucket) and a nonnegative
configured rate, calling `Allow(key)` `BurstSize + 1` times with zero
elapsed time between calls admits exactly the first `BurstSize` calls
and denies the final one. -/
theorem claim_C3 (rl : RateLimiter) (key : String) (now : Nat)
    (hfresh : rl.limiters.find? (fun x => x.1 == key) = none)
    (hr : 0 ≤ rl.config.RatePerSecond) :
    (runAllows rl key now (rl.config.BurstSize + 1)).1
      = List.replicate rl.config.BurstSize true ++ [false] := by
  rcases hbs : rl.config.BurstSize with _ | k
  · have hnf := Limiter.Allow_fresh rl.config.RatePerSecond 0 now hr
    rw [if_neg (by omega)] at hnf
    have hAllow : rl.Allow key now = (false,
        { rl with limiters :=
            (key, Limiter.New rl.config.RatePerSecond 0)
              :: (key, Limiter.New rl.config.RatePerSecond 0)
              :: rl.limiters }) := by
      simp [RateLimiter.Allow, RateLimiter.getLimiter, hfresh, hbs, hnf]
    rw [runAllows_succ, hAllow]
    rfl
  · have hnf := Limiter.Allow_fresh rl.config.RatePerSecond (k + 1) now hr
    rw [if_pos (by omega)] at hnf
    have hAllow : rl.Allow key now = (true,
        { rl with limiters :=
            (key, ⟨rl.config.RatePerSecond, k + 1, ((k + 1 : Nat) : ℚ) - 1, now⟩)
              :: (key, Limiter.New rl.config.RatePerSecond (k + 1))
              :: rl.limiters }) := by
      simp [RateLimiter.Allow, RateLimiter.getLimiter, hfresh, hbs, hnf]
    have htok2 : ((⟨rl.config.RatePerSecond, k + 1,
        ((k + 1 : Nat) : ℚ) - 1, now⟩ : Limiter)).tokens = (k : ℚ) := by
      show ((k + 1 : Nat) : ℚ) - 1 = (k : ℚ)
      push_cast; ring
    have hloop := runAllows_loop rl.config key now k
      ⟨rl.config.RatePerSecond, k + 1, ((k + 1 : Nat) : ℚ) - 1, now⟩
      ((key, Limiter.New rl.config.RatePerSecond (k + 1)) :: rl.limiters)
      htok2 (by show k ≤ k + 1; omega) rfl
    rw [runAllows_succ, hAllow]
    show true :: (runAllows ⟨rl.config,
        (key, ⟨rl.config.RatePerSecond, k + 1, ((k + 1 : Nat) : ℚ) - 1, now⟩)
          :: (key, Limiter.New rl.config.RatePerSecond (k + 1))
          :: rl.limiters⟩ key now (k + 1)).1 = _
    rw [hloop, List.replicate_succ]
    rfl

/-- Witness for C3 with the default configuration (rate 10, burst 20)
on an empty limiter map: 21 instantaneous calls for fresh key `"k"`
yield 20 admissions then a denial. -/
theorem claim_C3_witness :
    (⟨DefaultRateLimiterConfig, []⟩ : RateLimiter).limiters.find?
        (fun x => x.1 == "k") = none ∧
    0 ≤ (⟨DefaultRateLimiterConfig, []⟩ : RateLimiter).config.RatePerSecond ∧
    (runAllows ⟨DefaultRateLimiterConfig, []⟩ "k" 0 21).1
        = List.replicate 20 true ++ [false] :=
  ⟨rfl, by decide, claim_C3 ⟨DefaultRateLimiterConfig, []⟩ "k" 0 rfl (by decide)⟩

end RateLimitCascade
